import Mathlib

/-
Verification development for the GitHub top-100 tracker repository.

Shallow embedding of the core data-synchronization pipeline:
- app/services/github_parser.py : fetch_top100_repos, update_top100_in_db,
  fetch_commits, aggregate_commits_by_day, update_activity_in_db
- app/repositories/crud.py      : upsert_top_100_repo, upsert_repo_activity
- app/repositories/routers.py   : get_repo_activity
- update_data.py                : refresh_data activity loop

The PostgreSQL tables are modelled as association lists of row records;
SQL UPDATE / INSERT / DELETE statements become the corresponding pure list
transformations; exceptions become Except values; the I/O loop structure
(which record upserts are attempted before an exception escapes) is made
observable by returning the list of attempted keys next to the outcome.
-/

set_option autoImplicit false

/-! ## top100 table: rows and the reconciliation in update_top100_in_db -/

/-- Record shape built by fetch_top100_repos (github_parser.py lines 44-54)
and, with the same fields, a row of the top100 table. -/
structure RepoData where
  repo : String
  owner : String
  position_cur : Int
  position_prev : Option Int
  stars : Int
  watchers : Int
  forks : Int
  open_issues : Int
  language : Option String
  deriving DecidableEq, Repr

/-- Effect of the UPDATE statement of upsert_top_100_repo (crud.py lines 87-106)
on one matched row: every right-hand side of SET reads the old row, so
position_prev receives the row's old position_cur; owner is not in the SET list
and is kept. -/
def applyUpdateTop100 (row : RepoData) (rd : RepoData) : RepoData :=
  { repo := row.repo
    owner := row.owner
    position_cur := rd.position_cur
    position_prev := some row.position_cur
    stars := rd.stars
    watchers := rd.watchers
    forks := rd.forks
    open_issues := rd.open_issues
    language := rd.language }

/-- Per-row effect of the UPDATE ... WHERE repo = $1 statement: rows whose repo
matches are rewritten by applyUpdateTop100, others are untouched. -/
def updRow (rd : RepoData) (row : RepoData) : RepoData :=
  if row.repo == rd.repo then applyUpdateTop100 row rd else row

/-- upsert_top_100_repo (crud.py lines 63-126): run the UPDATE; if it matched
no row (update_result == "UPDATE 0"), INSERT the record as given, including its
position_prev field. -/
def upsert_top_100_repo (table : List RepoData) (rd : RepoData) : List RepoData :=
  if table.any (fun row => row.repo == rd.repo) then table.map (updRow rd)
  else table ++ [rd]

/-- DELETE FROM top100 WHERE repo NOT IN (new names)
(github_parser.py lines 71-74): keep exactly the rows whose repo is in the
fresh name set. -/
def delete_stale (table : List RepoData) (names : List String) : List RepoData :=
  table.filter (fun row => names.contains row.repo)

/-- Body of update_top100_in_db (github_parser.py lines 60-77) after the fetch:
delete the stale rows, then upsert every fetched record in order. The fresh
ranking (the list fetch_top100_repos returned) is passed as an argument. -/
def update_top100_in_db (table : List RepoData) (repos : List RepoData) : List RepoData :=
  List.foldl upsert_top_100_repo (delete_stale table (repos.map RepoData.repo)) repos

/-- Row of the top100 table holding a given full name: the table's UNIQUE key
makes this the row for that name. -/
def lookupRow (table : List RepoData) (n : String) : Option RepoData :=
  table.find? (fun row => row.repo == n)

/-! ## Rank fetcher: fetch_top100_repos over a raw provider payload -/

/-- Error taxonomy of the provider side: an upstream HTTP failure, or a
missing dictionary key while reading the payload (Python KeyError). -/
inductive ProviderError where
  | upstream
  | keyError (field : String)
  deriving DecidableEq, Repr

/-- Python dictionary access d[k]: raises KeyError when the key is absent. -/
def getKey {α : Type} (name : String) : Option α → Except ProviderError α
  | some a => Except.ok a
  | none => Except.error (ProviderError.keyError name)

/-- The owner object of a search item; only its login key is read. -/
structure RawOwner where
  login : Option String
  deriving DecidableEq, Repr

/-- One item of the search payload. Each field is the value under the
corresponding JSON key, none when the key is absent. The language key, when
present, holds either null (inner none) or a string. -/
structure RawRepoItem where
  full_name : Option String
  owner : Option RawOwner
  stargazers_count : Option Int
  watchers_count : Option Int
  forks_count : Option Int
  open_issues_count : Option Int
  language : Option (Option String)
  deriving DecidableEq, Repr

/-- Result of api.search.repos: the items key may be absent. -/
structure SearchPayload where
  items : Option (List RawRepoItem)
  deriving DecidableEq, Repr

/-- Building repo_data for one item (github_parser.py lines 44-54), num being
its 1-based enumerate index; dictionary reads happen in the order of the
Python dict literal and the first missing key raises. -/
def parse_item (num : Int) (it : RawRepoItem) : Except ProviderError RepoData := do
  let fn ← getKey "full_name" it.full_name
  let ow ← getKey "owner" it.owner
  let lg ← getKey "login" ow.login
  let st ← getKey "stargazers_count" it.stargazers_count
  let wa ← getKey "watchers_count" it.watchers_count
  let fo ← getKey "forks_count" it.forks_count
  let oi ← getKey "open_issues_count" it.open_issues_count
  let lang ← getKey "language" it.language
  Except.ok
    { repo := fn
      owner := lg
      position_cur := num
      position_prev := none
      stars := st
      watchers := wa
      forks := fo
      open_issues := oi
      language := lang }

/-- The enumerate loop of fetch_top100_repos: items in order, num starting at
the given index; the first KeyError aborts the whole call. -/
def build_repos (num : Int) : List RawRepoItem → Except ProviderError (List RepoData)
  | [] => Except.ok []
  | it :: rest => do
    let r ← parse_item num it
    let rs ← build_repos (num + 1) rest
    Except.ok (r :: rs)

/-- fetch_top100_repos (github_parser.py lines 16-57) over the provider call
outcome: an upstream error propagates (the function has no try block); when
the payload has no items key, the guard "if 'items' in result" is false and
the empty list is returned; otherwise the items are parsed with enumerate
starting at 1. -/
def fetch_top100_repos (res : Except ProviderError SearchPayload) :
    Except ProviderError (List RepoData) :=
  match res with
  | Except.error e => Except.error e
  | Except.ok payload =>
    match payload.items with
    | none => Except.ok []
    | some items => build_repos 1 items

/-- Whether an Except value is an error. -/
def isErr {ε α : Type} : Except ε α → Bool
  | Except.error _ => true
  | Except.ok _ => false

/-! ## Commit records and the aggregator aggregate_commits_by_day -/

/-- A raw commit record as the aggregator reads it. The code first reads
c.commit.author.date unconditionally, so a record the aggregator processes has
an author object with a date; date holds that ISO-8601 timestamp string.
name_field is the author object's name key: none when the key is absent,
some none when it is present with value null (Python None), some (some s)
when it holds the string s. -/
structure Commit where
  date : String
  name_field : Option (Option String)
  deriving DecidableEq, Repr

/-- day_str of a commit (github_parser.py lines 138-141): the date component
of the timestamp in the timestamp's own offset. For the canonical
YYYY-MM-DDTHH:MM:SS strings the provider sends,
datetime.fromisoformat(...).date().isoformat() is the first ten characters. -/
def day_of (ts : String) : String := ts.take 10

/-- author_name (github_parser.py lines 143-145): "Unknown" when the name key
is absent, otherwise the key's value, which is Python None when the value was
null. An author object that reached this point contains the date key, so the
truthiness test on it is always true. -/
def author_of (c : Commit) : Option String :=
  match c.name_field with
  | none => some "Unknown"
  | some v => v

/-- Value of one day bucket: commit count and the author set, modelled as a
duplicate-free list in insertion order. -/
structure DayStats where
  commits : Nat
  authors : List (Option String)
  deriving DecidableEq, Repr

/-- set.add on the author set: a no-op when the author is already present. -/
def insertAuthor (a : Option String) (l : List (Option String)) : List (Option String) :=
  if a ∈ l then l else l ++ [a]

/-- Python dict update for one commit (github_parser.py lines 147-154): the
bucket for the day is created as zero and empty when absent, then its count is
incremented and the author added. Net effect on the association list: update
the entry holding the day, or append a fresh one-commit entry. -/
def bump (day : String) (a : Option String) : List (String × DayStats) → List (String × DayStats)
  | [] => [(day, ⟨1, [a]⟩)]
  | (d, s) :: rest =>
    if d = day then (d, ⟨s.commits + 1, insertAuthor a s.authors⟩) :: rest
    else (d, s) :: bump day a rest

/-- One iteration of the aggregation loop. -/
def agg_step (acc : List (String × DayStats)) (c : Commit) : List (String × DayStats) :=
  bump (day_of c.date) (author_of c) acc

/-- aggregate_commits_by_day (github_parser.py lines 116-156): fold the loop
body over the commits starting from the empty dict. -/
def aggregate_commits_by_day (commits : List Commit) : List (String × DayStats) :=
  commits.foldl agg_step []

/-- Total commit count over all day buckets. -/
def sumCommits (l : List (String × DayStats)) : Nat :=
  (l.map (fun p => p.2.commits)).sum

/-! ## Paginated commit fetcher fetch_commits -/

/-- The pagination loop of fetch_commits (github_parser.py lines 96-108),
parametrised by the provider's per-page responses. Arguments: remaining fuel
(the source loop terminates when a page comes back empty or short; fuel only
bounds the recursion depth of the model), the next page index, the commits
collected so far, the pages requested so far. Returns the collected commits
and the requested page list, or the provider error that escaped the loop. -/
def fetch_commits_go (provider : Nat → Except ProviderError (List Commit)) :
    Nat → Nat → List Commit → List Nat → Except ProviderError (List Commit × List Nat)
  | 0, _, acc, reqs => Except.ok (acc, reqs)
  | fuel + 1, page, acc, reqs =>
    match provider page with
    | Except.error e => Except.error e
    | Except.ok result =>
      if result.isEmpty then Except.ok (acc, reqs ++ [page])
      else if result.length < 100 then Except.ok (acc ++ result, reqs ++ [page])
      else fetch_commits_go provider fuel (page + 1) (acc ++ result) (reqs ++ [page])

/-- fetch_commits (github_parser.py lines 80-113): run the pagination loop
from page 1 inside the try block; any exception is caught, printed and the
empty list returned. The printed cause is returned as the second component. -/
def fetch_commits (provider : Nat → Except ProviderError (List Commit)) (fuel : Nat) :
    List Commit × Option ProviderError :=
  match fetch_commits_go provider fuel 1 [] [] with
  | Except.ok (commits, _) => (commits, none)
  | Except.error e => ([], some e)

/-! ## Activity table and the loops of update_activity_in_db / refresh_data -/

/-- The store exception of crud.py, surfaced as RuntimeError there and named
PersistenceError by the spec. -/
inductive PersistenceError where
  | persistence
  deriving DecidableEq, Repr

/-- Row of the activity table. -/
structure ActRow where
  owner : String
  repo : String
  day : String
  commits : Nat
  authors : List (Option String)
  deriving DecidableEq, Repr

/-- Unique key (owner, repo, date) of the activity table. -/
structure ActKey where
  owner : String
  repo : String
  day : String
  deriving DecidableEq, Repr

/-- upsert_repo_activity (crud.py lines 131-174) on a store that does not
fail: UPDATE commits and authors WHERE the key matches; if no row matched,
INSERT the new row. -/
def upsert_repo_activity (store : List ActRow) (o r day : String) (cnt : Nat)
    (auths : List (Option String)) : List ActRow :=
  if store.any (fun row => row.owner == o && row.repo == r && row.day == day) then
    store.map (fun row =>
      if row.owner == o && row.repo == r && row.day == day then
        { row with commits := cnt, authors := auths }
      else row)
  else store ++ [⟨o, r, day, cnt, auths⟩]

/-- The upsert loop of update_activity_in_db (github_parser.py lines 177-183)
over the aggregated day buckets. failAt says on which keys the store raises
its PersistenceError; the loop body has no try block, so a raise escapes the
loop at once. Returns the keys whose upsert was attempted, and the final
store or the escaped error. -/
def update_activity_loop (failAt : ActKey → Bool) (o r : String) (store : List ActRow) :
    List (String × DayStats) → List ActKey × Except PersistenceError (List ActRow)
  | [] => ([], Except.ok store)
  | (day, data) :: rest =>
    if failAt ⟨o, r, day⟩ then ([⟨o, r, day⟩], Except.error PersistenceError.persistence)
    else
      let res := update_activity_loop failAt o r
        (upsert_repo_activity store o r day data.commits data.authors) rest
      (⟨o, r, day⟩ :: res.1, res.2)

/-- One tracked repository of the batch with its aggregated day buckets
(the outcome of its fetch and aggregation). -/
structure RepoJob where
  owner : String
  repo : String
  stats : List (String × DayStats)
  deriving Repr

/-- The per-repository activity loop of refresh_data (update_data.py lines
40-45): update_activity_in_db for each tracked repository in order; the loop
has no try block, so an escaped PersistenceError ends the batch. -/
def refresh_activity_batch (failAt : ActKey → Bool) (store : List ActRow) :
    List RepoJob → List ActKey × Except PersistenceError (List ActRow)
  | [] => ([], Except.ok store)
  | job :: rest =>
    let res := update_activity_loop failAt job.owner job.repo store job.stats
    match res.2 with
    | Except.error e => (res.1, Except.error e)
    | Except.ok store1 =>
      let res2 := refresh_activity_batch failAt store1 rest
      (res.1 ++ res2.1, res2.2)

/-! ## Activity endpoint get_repo_activity -/

/-- A calendar date as FastAPI parses it; comparison is by (year, month, day). -/
structure PyDate where
  y : Nat
  m : Nat
  d : Nat
  deriving DecidableEq, Repr

/-- Python date comparison a < b. -/
def PyDate.lt (a b : PyDate) : Bool :=
  decide (a.y < b.y) ||
    (a.y == b.y && (decide (a.m < b.m) || (a.m == b.m && decide (a.d < b.d))))

/-- A database failure inside fetch_repo_activity, surfaced as RuntimeError. -/
inductive DbError where
  | dbError
  deriving DecidableEq, Repr

/-- An HTTPException with its status code. -/
inductive HttpError where
  | http (code : Nat)
  deriving DecidableEq, Repr

/-- One row returned by the activity range query. -/
structure ActivityOut where
  date : PyDate
  commits : Nat
  authors : List String
  deriving DecidableEq, Repr

/-- get_repo_activity (routers.py lines 63-108): reject with 400 when
since > until, before the try block and before any store access; then query
the store (one store call). A store error becomes 500; an empty result raises
the 404 inside the try block, which the generic except clause rewraps as 500.
The second component counts store calls made. -/
def get_repo_activity
    (storeFetch : String → String → PyDate → PyDate → Except DbError (List ActivityOut))
    (o r : String) (since untl : PyDate) :
    Except HttpError (List ActivityOut) × Nat :=
  if PyDate.lt untl since then (Except.error (HttpError.http 400), 0)
  else
    match storeFetch o r since untl with
    | Except.error _ => (Except.error (HttpError.http 500), 1)
    | Except.ok [] => (Except.error (HttpError.http 500), 1)
    | Except.ok data => (Except.ok data, 1)

/-! ## Concrete inputs used by the witnesses and counterexamples -/

/-- A commit record with no author-name key. -/
def commit0 : Commit := ⟨"", none⟩

/-- Provider of C6: pages 1 to 3 return exactly 100 records, page 4 returns
none. -/
def provider6 (page : Nat) : Except ProviderError (List Commit) :=
  Except.ok (if page ≤ 3 then List.replicate 100 commit0 else [])

/-- Provider whose very first page request fails. -/
def providerFail (_page : Nat) : Except ProviderError (List Commit) :=
  Except.error ProviderError.upstream

/-- Prior top100 state of the C2 witness: one row for a/x ranked 3. -/
def tableW : List RepoData :=
  [⟨"a/x", "a", 3, none, 5, 5, 1, 0, some "Py"⟩]

/-- Fresh ranking of the C1 and C2 witnesses: a/x moves to rank 1, b/y is new
at rank 2. -/
def reposW : List RepoData :=
  [⟨"a/x", "a", 1, none, 9, 9, 2, 1, some "Py"⟩,
   ⟨"b/y", "b", 2, none, 4, 4, 1, 0, none⟩]

/-- The fresh record of a/x in reposW. -/
def rdWa : RepoData := ⟨"a/x", "a", 1, none, 9, 9, 2, 1, some "Py"⟩

/-- The fresh record of b/y in reposW. -/
def rdWb : RepoData := ⟨"b/y", "b", 2, none, 4, 4, 1, 0, none⟩

/-- Day buckets of the C3 counterexample: two dates, one commit each. -/
def statsC3 : List (String × DayStats) :=
  [("2024-01-01", ⟨1, [some "a"]⟩), ("2024-01-02", ⟨1, [some "a"]⟩)]

/-- Store failure oracle of the C3 counterexample: the upsert of the first
date raises. -/
def failC3 (k : ActKey) : Bool := k.day == "2024-01-01"

/-- Store failure oracle of the C3 witness: the upsert of the second date
raises. -/
def failC3w (k : ActKey) : Bool := k.day == "2024-01-02"

/-- A store that never raises. -/
def failNever (_k : ActKey) : Bool := false

/-- Two commits on the same day whose author-name key is present with a null
value (the C7 counterexample). -/
def commitsC7 : List Commit :=
  [⟨"2024-01-01T12:00:00Z", some none⟩, ⟨"2024-01-01T13:00:00Z", some none⟩]

/-- One commit by Alice (the C10 witness). -/
def commitsW : List Commit := [⟨"2024-01-01T00:00:00Z", some (some "Alice")⟩]

/-- The day bucket produced by commitsW. -/
def bucketW : String × DayStats := ("2024-01-01", ⟨1, [some "Alice"]⟩)

/-- A store query that always succeeds with an empty result (the C9 witness). -/
def storeOkW (_o _r : String) (_s _u : PyDate) : Except DbError (List ActivityOut) :=
  Except.ok []

/-- A search item with no keys at all (the C4 witness). -/
def itemBad : RawRepoItem := ⟨none, none, none, none, none, none, none⟩

/-! ## Helper lemmas: lookup behaviour of the top100 operations -/

theorem updRow_repo (rd row : RepoData) : (updRow rd row).repo = row.repo := by
  unfold updRow
  split <;> rfl

theorem find?_filter_keep {α : Type} (l : List α) (p q : α → Bool)
    (h : ∀ x, p x = true → q x = true) :
    (l.filter q).find? p = l.find? p := by
  induction l with
  | nil => rfl
  | cons a t ih =>
    rw [List.filter_cons]
    by_cases hp : p a = true
    · rw [if_pos (h a hp), List.find?_cons_of_pos _ hp, List.find?_cons_of_pos _ hp]
    · rw [List.find?_cons_of_neg _ (by simpa using hp)]
      by_cases hq : q a = true
      · rw [if_pos hq, List.find?_cons_of_neg _ (by simpa using hp), ih]
      · rw [if_neg hq, ih]

theorem find?_map_updRow (t : List RepoData) (rd : RepoData) (n : String) :
    (t.map (updRow rd)).find? (fun row => row.repo == n)
      = (t.find? (fun row => row.repo == n)).map (updRow rd) := by
  induction t with
  | nil => rfl
  | cons a t ih =>
    by_cases ha : a.repo = n
    · simp [updRow_repo, ha]
    · simp [updRow_repo, ha, ih]

theorem lookupRow_upsert_other (t : List RepoData) (rd : RepoData) (n : String)
    (h : rd.repo ≠ n) :
    lookupRow (upsert_top_100_repo t rd) n = lookupRow t n := by
  unfold upsert_top_100_repo lookupRow
  split
  · rw [find?_map_updRow]
    cases hf : t.find? (fun row => row.repo == n) with
    | none => rfl
    | some row =>
      have hrow : row.repo = n := by simpa using List.find?_some hf
      have : updRow rd row = row := by
        unfold updRow
        rw [if_neg (by simp [hrow]; exact fun hc => h hc.symm)]
      simp [this]
  · rw [List.find?_append]
    have hbeq : (rd.repo == n) = false := beq_eq_false_iff_ne.mpr h
    have : List.find? (fun row => row.repo == n) [rd] = none := by
      simp [List.find?, hbeq]
    rw [this]
    cases t.find? (fun row => row.repo == n) <;> rfl

theorem lookupRow_upsert_update (t : List RepoData) (rd : RepoData) (row : RepoData)
    (h : lookupRow t rd.repo = some row) :
    lookupRow (upsert_top_100_repo t rd) rd.repo = some (applyUpdateTop100 row rd) := by
  unfold lookupRow at h
  have hany : t.any (fun r => r.repo == rd.repo) = true := by
    refine List.any_eq_true.mpr ⟨row, List.mem_of_find?_eq_some h, ?_⟩
    exact @List.find?_some RepoData (fun r => r.repo == rd.repo) row t h
  have hrow : row.repo = rd.repo := by
    simpa using @List.find?_some RepoData (fun r => r.repo == rd.repo) row t h
  simp only [upsert_top_100_repo, hany, if_true, lookupRow]
  rw [find?_map_updRow, h]
  simp [updRow, hrow]

theorem lookupRow_upsert_insert (t : List RepoData) (rd : RepoData)
    (h : lookupRow t rd.repo = none) :
    lookupRow (upsert_top_100_repo t rd) rd.repo = some rd := by
  have hany : t.any (fun r => r.repo == rd.repo) = false := by
    refine List.any_eq_false.mpr ?_
    intro x hx
    have := List.find?_eq_none.mp h x hx
    simpa using this
  unfold lookupRow at h
  simp only [upsert_top_100_repo, hany, if_false, Bool.false_eq_true, lookupRow]
  rw [List.find?_append, h]
  simp [List.find?]

theorem lookupRow_foldl_other (R : List RepoData) (n : String)
    (h : ∀ r ∈ R, r.repo ≠ n) :
    ∀ t : List RepoData,
      lookupRow (List.foldl upsert_top_100_repo t R) n = lookupRow t n := by
  induction R with
  | nil => intro t; rfl
  | cons rd R ih =>
    intro t
    rw [List.foldl_cons, ih (fun r hr => h r (List.mem_cons_of_mem _ hr)),
      lookupRow_upsert_other t rd n (h rd (List.mem_cons_self _ _))]

theorem lookupRow_delete_stale (t : List RepoData) (names : List String) (n : String)
    (hn : n ∈ names) :
    lookupRow (delete_stale t names) n = lookupRow t n := by
  unfold delete_stale lookupRow
  refine find?_filter_keep t _ _ ?_
  intro x hx
  have hxr : x.repo = n := by simpa using hx
  rw [hxr]
  exact List.elem_iff.mpr hn

/-! ## Helper lemmas: the full-name set after the top100 operations -/

theorem names_upsert (t : List RepoData) (rd : RepoData) (n : String) :
    n ∈ (upsert_top_100_repo t rd).map RepoData.repo
      ↔ n ∈ t.map RepoData.repo ∨ n = rd.repo := by
  unfold upsert_top_100_repo
  split
  case isTrue hany =>
    have hmem : rd.repo ∈ t.map RepoData.repo := by
      rcases List.any_eq_true.mp hany with ⟨row, hrow, hpred⟩
      exact List.mem_map.mpr ⟨row, hrow, by simpa using hpred⟩
    rw [List.map_map]
    have hcomp : (RepoData.repo ∘ updRow rd) = RepoData.repo := by
      funext row
      exact updRow_repo rd row
    rw [hcomp]
    constructor
    · exact Or.inl
    · rintro (hl | rfl)
      · exact hl
      · exact hmem
  case isFalse =>
    rw [List.map_append]
    simp [List.mem_append, eq_comm]

theorem names_foldl (R : List RepoData) :
    ∀ t : List RepoData, ∀ n : String,
      n ∈ (List.foldl upsert_top_100_repo t R).map RepoData.repo
        ↔ n ∈ t.map RepoData.repo ∨ n ∈ R.map RepoData.repo := by
  induction R with
  | nil => intro t n; simp
  | cons rd R ih =>
    intro t n
    rw [List.foldl_cons, ih, names_upsert]
    simp only [List.map_cons, List.mem_cons]
    tauto

theorem names_delete_stale (t : List RepoData) (names : List String) (n : String) :
    n ∈ (delete_stale t names).map RepoData.repo
      ↔ n ∈ t.map RepoData.repo ∧ n ∈ names := by
  unfold delete_stale
  constructor
  · intro h
    rcases List.mem_map.mp h with ⟨row, hrow, hr⟩
    rcases List.mem_filter.mp hrow with ⟨hmem, hc⟩
    subst hr
    exact ⟨List.mem_map.mpr ⟨row, hmem, rfl⟩, List.elem_iff.mp hc⟩
  · rintro ⟨h1, h2⟩
    rcases List.mem_map.mp h1 with ⟨row, hrow, hr⟩
    subst hr
    exact List.mem_map.mpr
      ⟨row, List.mem_filter.mpr ⟨hrow, List.elem_iff.mpr h2⟩, rfl⟩

/-- C1: for every fresh ranking of at most 100 records, update_top100_in_db
first deletes the stale rows and only then performs the upserts, and the
full-name set of the resulting top100 table equals exactly the full-name set
of the fresh ranking: no extra rows remain and no name of the ranking is
missing. -/
theorem C1_top100_reconciliation (table repos : List RepoData)
    (_hlen : repos.length ≤ 100) :
    update_top100_in_db table repos
        = List.foldl upsert_top_100_repo
            (delete_stale table (repos.map RepoData.repo)) repos
      ∧ ∀ n : String,
          n ∈ (update_top100_in_db table repos).map RepoData.repo
            ↔ n ∈ repos.map RepoData.repo := by
  refine ⟨rfl, fun n => ?_⟩
  unfold update_top100_in_db
  rw [names_foldl, names_delete_stale]
  tauto

theorem C1_witness :
    reposW.length ≤ 100
      ∧ ("a/x" ∈ (update_top100_in_db tableW reposW).map RepoData.repo
          ↔ "a/x" ∈ reposW.map RepoData.repo) := by
  exact ⟨by decide, (C1_top100_reconciliation tableW reposW (by decide)).2 "a/x"⟩

/-- C2: under the table's unique-name invariant expressed on the ranking
(pairwise distinct full names, position_prev still unset as fetch_top100_repos
delivers it), every full name present both in the prior table state and in the
fresh ranking ends the reconciliation with position_prev equal to its prior
position_cur and all metrics overwritten (owner untouched), while every full
name newly present in the ranking ends it as an inserted row with
position_prev null. -/
theorem C2_position_history (table repos : List RepoData) (rd : RepoData)
    (hR : (repos.map RepoData.repo).Nodup)
    (hprev : ∀ r ∈ repos, r.position_prev = none)
    (hrd : rd ∈ repos) :
    (∀ row0 : RepoData, lookupRow table rd.repo = some row0 →
        lookupRow (update_top100_in_db table repos) rd.repo
          = some { repo := row0.repo, owner := row0.owner,
                   position_cur := rd.position_cur,
                   position_prev := some row0.position_cur,
                   stars := rd.stars, watchers := rd.watchers, forks := rd.forks,
                   open_issues := rd.open_issues, language := rd.language })
      ∧ (lookupRow table rd.repo = none →
          lookupRow (update_top100_in_db table repos) rd.repo = some rd
            ∧ rd.position_prev = none) := by
  obtain ⟨R1, R2, rfl⟩ := List.append_of_mem hrd
  have hmap : ((R1 ++ rd :: R2).map RepoData.repo)
      = R1.map RepoData.repo ++ rd.repo :: R2.map RepoData.repo := by
    simp
  rw [hmap] at hR
  have hnd := List.nodup_append.mp hR
  have hn2 : rd.repo ∉ R2.map RepoData.repo := (List.nodup_cons.mp hnd.2.1).1
  have hn1 : rd.repo ∉ R1.map RepoData.repo := by
    intro hmem
    exact (hnd.2.2 hmem) (List.mem_cons_self _ _)
  have hR1 : ∀ r ∈ R1, r.repo ≠ rd.repo := by
    intro r hr hc
    apply hn1
    rw [← hc]
    exact List.mem_map.mpr ⟨r, hr, rfl⟩
  have hR2 : ∀ r ∈ R2, r.repo ≠ rd.repo := by
    intro r hr hc
    apply hn2
    rw [← hc]
    exact List.mem_map.mpr ⟨r, hr, rfl⟩
  have hnames : rd.repo ∈ (R1 ++ rd :: R2).map RepoData.repo := by
    simp
  have hfold : update_top100_in_db table (R1 ++ rd :: R2)
      = List.foldl upsert_top_100_repo
          (upsert_top_100_repo
            (List.foldl upsert_top_100_repo
              (delete_stale table ((R1 ++ rd :: R2).map RepoData.repo)) R1) rd) R2 := by
    unfold update_top100_in_db
    rw [List.foldl_append, List.foldl_cons]
  have hstep2 : lookupRow
      (List.foldl upsert_top_100_repo
        (delete_stale table ((R1 ++ rd :: R2).map RepoData.repo)) R1) rd.repo
      = lookupRow table rd.repo := by
    rw [lookupRow_foldl_other R1 rd.repo hR1,
      lookupRow_delete_stale table _ rd.repo hnames]
  constructor
  · intro row0 hrow0
    rw [hfold, lookupRow_foldl_other R2 rd.repo hR2,
      lookupRow_upsert_update _ rd row0 (by rw [hstep2]; exact hrow0)]
    rfl
  · intro hnone
    refine ⟨?_, hprev rd hrd⟩
    rw [hfold, lookupRow_foldl_other R2 rd.repo hR2,
      lookupRow_upsert_insert _ rd (by rw [hstep2]; exact hnone)]

theorem C2_witness :
    lookupRow (update_top100_in_db tableW reposW) "a/x"
        = some ⟨"a/x", "a", 1, some 3, 9, 9, 2, 1, some "Py"⟩
      ∧ lookupRow (update_top100_in_db tableW reposW) "b/y"
        = some ⟨"b/y", "b", 2, none, 4, 4, 1, 0, none⟩ := by
  constructor
  · exact (C2_position_history tableW reposW rdWa (by decide) (by decide) (by decide)).1
      ⟨"a/x", "a", 3, none, 5, 5, 1, 0, some "Py"⟩ (by decide)
  · exact ((C2_position_history tableW reposW rdWb (by decide) (by decide) (by decide)).2
      (by decide)).1

/-! ## Helper lemmas: the aggregator -/

theorem insertAuthor_ne_nil (a : Option String) (l : List (Option String)) :
    insertAuthor a l ≠ [] := by
  unfold insertAuthor
  split
  case isTrue hmem =>
    intro hc
    subst hc
    simp at hmem
  case isFalse _ =>
    simp

theorem sumCommits_bump (day : String) (a : Option String)
    (l : List (String × DayStats)) :
    sumCommits (bump day a l) = sumCommits l + 1 := by
  induction l with
  | nil => simp [bump, sumCommits]
  | cons p rest ih =>
    obtain ⟨d, s⟩ := p
    by_cases hd : d = day
    · simp [bump, hd, sumCommits]
      omega
    · simp only [bump, if_neg hd]
      simp only [sumCommits, List.map_cons, List.sum_cons] at *
      omega

theorem sumCommits_foldl (commits : List Commit) :
    ∀ acc, sumCommits (commits.foldl agg_step acc) = sumCommits acc + commits.length := by
  induction commits with
  | nil => intro acc; simp
  | cons c cs ih =>
    intro acc
    rw [List.foldl_cons, ih, agg_step, sumCommits_bump]
    simp only [List.length_cons]
    omega

theorem bump_invariant (day : String) (a : Option String)
    (l : List (String × DayStats))
    (h : ∀ p ∈ l, 1 ≤ p.2.commits ∧ p.2.authors ≠ []) :
    ∀ p ∈ bump day a l, 1 ≤ p.2.commits ∧ p.2.authors ≠ [] := by
  induction l with
  | nil =>
    intro p hp
    simp [bump] at hp
    subst hp
    exact ⟨le_refl 1, by simp⟩
  | cons q rest ih =>
    obtain ⟨d, s⟩ := q
    intro p hp
    by_cases hd : d = day
    · rw [bump, if_pos hd] at hp
      rcases List.mem_cons.mp hp with hp | hp
      · subst hp
        exact ⟨Nat.le_add_left 1 s.commits, insertAuthor_ne_nil a s.authors⟩
      · exact h p (List.mem_cons_of_mem _ hp)
    · rw [bump, if_neg hd] at hp
      rcases List.mem_cons.mp hp with hp | hp
      · subst hp
        exact h (d, s) (List.mem_cons_self _ _)
      · exact ih (fun q hq => h q (List.mem_cons_of_mem _ hq)) p hp

theorem aggregate_invariant (commits : List Commit) :
    ∀ acc, (∀ p ∈ acc, 1 ≤ p.2.commits ∧ p.2.authors ≠ []) →
      ∀ p ∈ commits.foldl agg_step acc, 1 ≤ p.2.commits ∧ p.2.authors ≠ [] := by
  induction commits with
  | nil => intro acc h; exact h
  | cons c cs ih =>
    intro acc h
    rw [List.foldl_cons]
    exact ih _ (bump_invariant _ _ _ h)

/-- C8: the commit counts of the day buckets always sum to the number of input
commit records, and the empty input aggregates to the empty mapping. -/
theorem C8_commit_count_sum :
    (∀ commits : List Commit,
        sumCommits (aggregate_commits_by_day commits) = commits.length)
      ∧ aggregate_commits_by_day [] = [] := by
  refine ⟨fun commits => ?_, rfl⟩
  unfold aggregate_commits_by_day
  rw [sumCommits_foldl]
  simp [sumCommits]

/-- C10: every day bucket the aggregator produces carries a commit count of at
least one and a non-empty author set — so every row the activity sync writes
has these properties — and a repository whose fetched commit list is empty
produces no activity upserts at all. -/
theorem C10_bucket_invariant (commits : List Commit) :
    (∀ p ∈ aggregate_commits_by_day commits, 1 ≤ p.2.commits ∧ p.2.authors ≠ [])
      ∧ (commits = [] →
          ∀ (failAt : ActKey → Bool) (o r : String) (store : List ActRow),
            update_activity_loop failAt o r store (aggregate_commits_by_day commits)
              = ([], Except.ok store)) := by
  constructor
  · exact aggregate_invariant commits [] (by simp)
  · rintro rfl failAt o r store
    rfl

theorem C10_witness :
    (1 ≤ bucketW.2.commits ∧ bucketW.2.authors ≠ [])
      ∧ update_activity_loop failNever "o" "r" []
          (aggregate_commits_by_day []) = ([], Except.ok []) := by
  constructor
  · exact (C10_bucket_invariant commitsW).1 bucketW (by decide)
  · exact (C10_bucket_invariant []).2 rfl failNever "o" "r" []

/-- C7 counterexample: two commits on one day whose author-name key is present
with a null value aggregate to the author set holding only the null author —
the sentinel Unknown does not appear, although the claim requires these
records to be counted under Unknown. -/
theorem C7_counterexample :
    aggregate_commits_by_day commitsC7 = [("2024-01-01", ⟨2, [none]⟩)]
      ∧ some "Unknown" ∉ ([none] : List (Option String)) := by
  exact ⟨by decide, by decide⟩

/-- C7 amended: a commit whose author-name key is absent is counted under the
sentinel Unknown — in particular a day whose only two commits both lack the
name key aggregates to commit count 2 with author set exactly the Unknown
sentinel — but a commit whose name key is present holding a null value is
counted under the null author, not under Unknown. -/
theorem C7_amended_unknown (d ts1 ts2 ts3 : String)
    (h1 : day_of ts1 = d) (h2 : day_of ts2 = d) :
    aggregate_commits_by_day [⟨ts1, none⟩, ⟨ts2, none⟩]
        = [(d, ⟨2, [some "Unknown"]⟩)]
      ∧ author_of ⟨ts1, none⟩ = some "Unknown"
      ∧ aggregate_commits_by_day [⟨ts3, some none⟩]
          = [(day_of ts3, ⟨1, [none]⟩)]
      ∧ author_of ⟨ts3, some none⟩ = none := by
  refine ⟨?_, rfl, rfl, rfl⟩
  simp [aggregate_commits_by_day, agg_step, author_of, h1, h2, bump, insertAuthor]

theorem C7_witness :
    aggregate_commits_by_day
        [⟨"2024-01-01T00:00:00Z", none⟩, ⟨"2024-01-01T01:00:00Z", none⟩]
      = [("2024-01-01", ⟨2, [some "Unknown"]⟩)] := by
  exact (C7_amended_unknown "2024-01-01" "2024-01-01T00:00:00Z"
    "2024-01-01T01:00:00Z" "x" (by decide) (by decide)).1

/-! ## Helper lemmas: abort behaviour of the activity loops -/

theorem update_activity_loop_abort (failAt : ActKey → Bool) (o r : String)
    (d : String) (data : DayStats) (s2 : List (String × DayStats)) :
    ∀ (s1 : List (String × DayStats)) (store : List ActRow),
      (∀ p ∈ s1, failAt ⟨o, r, p.1⟩ = false) →
      failAt ⟨o, r, d⟩ = true →
      update_activity_loop failAt o r store (s1 ++ (d, data) :: s2)
        = ((s1.map fun p => ⟨o, r, p.1⟩) ++ [⟨o, r, d⟩],
           Except.error PersistenceError.persistence) := by
  intro s1
  induction s1 with
  | nil =>
    intro store h1 h2
    simp [update_activity_loop, h2]
  | cons p rest ih =>
    intro store h1 h2
    obtain ⟨day, data1⟩ := p
    have hp : failAt ⟨o, r, day⟩ = false := h1 (day, data1) (List.mem_cons_self _ _)
    simp only [List.cons_append, update_activity_loop, hp, Bool.false_eq_true,
      if_false, List.append_eq]
    rw [ih _ (fun q hq => h1 q (List.mem_cons_of_mem _ hq)) h2]
    simp

/-- C3 counterexample: on a repository with day buckets for two dates whose
store raises on the first date's upsert, the loop attempts only the first
date — the second date record of the same repository is never attempted, and
the error escapes. -/
theorem C3_counterexample :
    update_activity_loop failC3 "o" "r" [] statsC3
        = ([⟨"o", "r", "2024-01-01"⟩], Except.error PersistenceError.persistence)
      ∧ (⟨"o", "r", "2024-01-02"⟩ : ActKey)
          ∉ (update_activity_loop failC3 "o" "r" [] statsC3).1 := by
  exact ⟨rfl, by decide⟩

/-- C3 amended: the upsert loops have no exception handling, so a
PersistenceError raised while upserting one date record aborts the remaining
date records of that repository and propagates out of the repository loop,
aborting the activity sync of every subsequent repository in the batch: the
attempted keys are exactly the error-free prefix plus the failing record. -/
theorem C3_amended_abort (failAt : ActKey → Bool) (store : List ActRow)
    (o r : String) (s1 : List (String × DayStats)) (d : String) (data : DayStats)
    (s2 : List (String × DayStats)) (rest : List RepoJob)
    (h1 : ∀ p ∈ s1, failAt ⟨o, r, p.1⟩ = false)
    (h2 : failAt ⟨o, r, d⟩ = true) :
    refresh_activity_batch failAt store (⟨o, r, s1 ++ (d, data) :: s2⟩ :: rest)
      = ((s1.map fun p => ⟨o, r, p.1⟩) ++ [⟨o, r, d⟩],
         Except.error PersistenceError.persistence) := by
  have hloop := update_activity_loop_abort failAt o r d data s2 s1 store h1 h2
  simp [refresh_activity_batch, hloop]

theorem C3_witness :
    refresh_activity_batch failC3w [] (⟨"o", "r", statsC3⟩ :: [⟨"p", "q", []⟩])
      = ([⟨"o", "r", "2024-01-01"⟩, ⟨"o", "r", "2024-01-02"⟩],
         Except.error PersistenceError.persistence) := by
  exact C3_amended_abort failC3w [] "o" "r" [("2024-01-01", ⟨1, [some "a"]⟩)]
    "2024-01-02" ⟨1, [some "a"]⟩ [] [⟨"p", "q", []⟩] (by decide) (by decide)

/-- C5: whenever some page request of the pagination loop raises a provider
error, fetch_commits catches it, records the cause (the printed message) and
returns the empty commit sequence instead of propagating the exception, so
the batch over repositories is never aborted by one repository's fetch. -/
theorem C5_fetch_degrades (provider : Nat → Except ProviderError (List Commit))
    (fuel : Nat) (e : ProviderError)
    (h : fetch_commits_go provider fuel 1 [] [] = Except.error e) :
    fetch_commits provider fuel = ([], some e) := by
  unfold fetch_commits
  rw [h]

theorem C5_witness :
    fetch_commits_go providerFail 5 1 [] [] = Except.error ProviderError.upstream
      ∧ fetch_commits providerFail 5 = ([], some ProviderError.upstream) := by
  exact ⟨rfl, C5_fetch_degrades providerFail 5 ProviderError.upstream rfl⟩

set_option maxRecDepth 4000

/-- C6: against a provider returning exactly 100 records for pages 1, 2 and 3
and none for page 4, the pagination loop terminates having requested exactly
the pages 1, 2, 3, 4 — starting at 1 and incrementing by 1 — and
fetch_commits returns exactly 3 * 100 records. -/
theorem C6_pagination :
    fetch_commits_go provider6 10 1 [] []
        = Except.ok (List.replicate 300 commit0, [1, 2, 3, 4])
      ∧ (fetch_commits provider6 10).1.length = 3 * 100 := by
  exact ⟨rfl, rfl⟩

/-- C9: whenever since is strictly later than until, the activity endpoint
rejects the request with the 400 validation failure raised before the try
block, and the store is never queried: zero store calls are made. -/
theorem C9_validation_first
    (storeFetch : String → String → PyDate → PyDate → Except DbError (List ActivityOut))
    (o r : String) (since untl : PyDate)
    (h : PyDate.lt untl since = true) :
    get_repo_activity storeFetch o r since untl
      = (Except.error (HttpError.http 400), 0) := by
  unfold get_repo_activity
  rw [if_pos h]

theorem C9_witness :
    PyDate.lt ⟨2024, 3, 5⟩ ⟨2024, 3, 10⟩ = true
      ∧ get_repo_activity storeOkW "octo" "hello" ⟨2024, 3, 10⟩ ⟨2024, 3, 5⟩
          = (Except.error (HttpError.http 400), 0) := by
  exact ⟨by decide,
    C9_validation_first storeOkW "octo" "hello" ⟨2024, 3, 10⟩ ⟨2024, 3, 5⟩ (by decide)⟩

/-! ## Helper lemmas: failing items make the rank fetch fail -/

theorem parse_item_err_full_name (num : Int) (it : RawRepoItem)
    (h : it.full_name = none) : isErr (parse_item num it) = true := by
  unfold parse_item
  rw [h]
  rfl

theorem build_repos_err (items : List RawRepoItem) (it : RawRepoItem)
    (hmem : it ∈ items) (hbad : it.full_name = none) :
    ∀ num : Int, isErr (build_repos num items) = true := by
  induction items with
  | nil => cases hmem
  | cons hd rest ih =>
    intro num
    rcases List.mem_cons.mp hmem with rfl | hmem2
    · show isErr (build_repos num (it :: rest)) = true
      unfold build_repos
      cases hp : parse_item num it with
      | error e => rfl
      | ok r =>
        have habs := parse_item_err_full_name num it hbad
        rw [hp] at habs
        simp [isErr] at habs
    · show isErr (build_repos num (hd :: rest)) = true
      unfold build_repos
      cases hp : parse_item num hd with
      | error e => rfl
      | ok r =>
        have hrec := ih hmem2 (num + 1)
        cases hb : build_repos (num + 1) rest with
        | error e => rfl
        | ok rs =>
          rw [hb] at hrec
          simp [isErr] at hrec

/-- C4 counterexample: a payload whose expected items key is absent — a
malformed payload — makes fetch_top100_repos return the empty list
successfully instead of failing with a ProviderError. -/
theorem C4_counterexample :
    fetch_top100_repos (Except.ok ⟨none⟩) = Except.ok [] := rfl

/-- C4 amended: fetch_top100_repos propagates an upstream provider error; a
payload whose top-level items key is absent yields the empty list rather than
an error; an item carrying every expected key parses successfully, a null
language value mapping to null without failing; but an item whose language
key is itself absent fails the call with a KeyError-style ProviderError, as
does any payload listing an item that misses a required key such as
full_name. -/
theorem C4_amended_fetch (e : ProviderError) (num : Int) (fn lg : String)
    (st wa fo oi : Int) (lang : Option String)
    (items : List RawRepoItem) (it : RawRepoItem)
    (hmem : it ∈ items) (hbad : it.full_name = none) :
    fetch_top100_repos (Except.error e) = Except.error e
      ∧ fetch_top100_repos (Except.ok ⟨none⟩) = Except.ok []
      ∧ parse_item num
            ⟨some fn, some ⟨some lg⟩, some st, some wa, some fo, some oi, some lang⟩
          = Except.ok ⟨fn, lg, num, none, st, wa, fo, oi, lang⟩
      ∧ parse_item num
            ⟨some fn, some ⟨some lg⟩, some st, some wa, some fo, some oi, none⟩
          = Except.error (ProviderError.keyError "language")
      ∧ isErr (fetch_top100_repos (Except.ok ⟨some items⟩)) = true := by
  refine ⟨rfl, rfl, rfl, rfl, ?_⟩
  exact build_repos_err items it hmem hbad 1

theorem C4_witness :
    fetch_top100_repos (Except.error ProviderError.upstream)
        = Except.error ProviderError.upstream
      ∧ parse_item 1 ⟨some "o/x", some ⟨some "o"⟩, some 1, some 1, some 0, some 0, some none⟩
          = Except.ok ⟨"o/x", "o", 1, none, 1, 1, 0, 0, none⟩
      ∧ isErr (fetch_top100_repos (Except.ok ⟨some [itemBad]⟩)) = true := by
  have h := C4_amended_fetch ProviderError.upstream 1 "o/x" "o" 1 1 0 0 none
    [itemBad] itemBad (by decide) (by decide)
  exact ⟨h.1, h.2.2.1, h.2.2.2.2⟩
